import Mathlib

/-!
Verification of the cryptopilot market-data synchronization engine.

Shallow embedding of the core components:
* `cryptopilot/utils/retry.py` — `RetryConfig`, `calculate_backoff`, `retry_with_backoff`;
* `cryptopilot/providers/base.py` — `OHLCV` and the provider error hierarchy;
* `cryptopilot/database/models.py` — `MarketDataRecord` and its pydantic validation;
* `cryptopilot/database/repository.py` — `insert_market_data`, `get_latest_timestamp`,
  `list_timestamps`;
* `cryptopilot/collectors/market_data.py` — `MarketDataCollector._collect_single`;
* `cryptopilot/collectors/gap_filler.py` — `GapFiller.detect_gaps_recent`,
  `GapFiller.fill_gaps_recent`.

Modelling conventions: UTC instants and durations are integer seconds
(`timedelta(days=n)` is `n * 86400`); Python `Decimal` is `ℚ`; Python strings
are `List Char` with ASCII semantics for `str.upper` / `str.strip`; the SQLite
table is a `List Row` in insertion order; asynchronous operations are pure
functions and an awaited sleep is recorded in an explicit trace.
-/

namespace Cryptopilot

/-! ## Python string primitives (ASCII fragment of `str.upper` / `str.strip`) -/

/-- ASCII case mapping of Python `str.upper`, one character at a time. -/
def pyUpperChar (c : Char) : Char :=
  if 'a' ≤ c ∧ c ≤ 'z' then Char.ofNat (c.toNat - 32) else c

/-- Python `s.upper()` on the ASCII fragment. -/
def pyUpper (s : List Char) : List Char := s.map pyUpperChar

/-- Whitespace recognised by Python `str.strip` (ASCII fragment). -/
def isPySpace (c : Char) : Bool := c = ' ' || c = '\t' || c = '\n' || c = '\r'

/-- Python `s.strip()`: drop whitespace from both ends. -/
def pyStrip (s : List Char) : List Char :=
  ((s.dropWhile isPySpace).reverse.dropWhile isPySpace).reverse

/-! ## Time -/

/-- `Timeframe` enum from `cryptopilot/database/models.py`. -/
inductive Timeframe where
  | oneHour
  | fourHour
  | oneDay
  | oneWeek
deriving DecidableEq, Repr

/-- `_TIMEFRAME_DELTAS` from the collectors, in seconds:
1h, 4h, 1d, 1w map to their literal durations. -/
def tfDelta : Timeframe → Int
  | Timeframe.oneHour => 3600
  | Timeframe.fourHour => 14400
  | Timeframe.oneDay => 86400
  | Timeframe.oneWeek => 604800

/-! ## Provider data model and error taxonomy (`cryptopilot/providers/base.py`) -/

/-- `OHLCV` pydantic model: one candle as returned by a provider. -/
structure OHLCV where
  timestamp : Int
  «open» : ℚ
  high : ℚ
  low : ℚ
  close : ℚ
  volume : ℚ
deriving DecidableEq, Repr

/-- Construction of an `OHLCV` through its pydantic `Field` constraints:
`open/high/low/close : gt=0`, `volume : ge=0`. These are the only checks the
model declares; no relation between high, low, open and close is validated. -/
def mkOHLCV (timestamp : Int) («open» high low close volume : ℚ) : Option OHLCV :=
  if 0 < «open» ∧ 0 < high ∧ 0 < low ∧ 0 < close ∧ 0 ≤ volume then
    some { timestamp, «open», high, low, close, volume }
  else
    none

/-- The exception values that can cross the retry boundary.
`rateLimit` is `RateLimitError(retry_after)`, `providerError` is a plain
`ProviderError`, `invalidSymbol` is `InvalidSymbolError`, and `other` stands
for any exception outside the provider hierarchy. -/
inductive Err where
  | rateLimit (retryAfter : Option ℚ)
  | providerError
  | invalidSymbol
  | other
deriving DecidableEq, Repr

/-- The exception classes a `RetryConfig.retry_on` tuple can name. -/
inductive ErrKind where
  | rateLimitK
  | providerK
  | invalidSymbolK
  | otherK
deriving DecidableEq, Repr

/-- Python `isinstance` over the hierarchy of `providers/base.py`:
`RateLimitError` and `InvalidSymbolError` are subclasses of `ProviderError`. -/
def isInstanceOf : Err → ErrKind → Bool
  | Err.rateLimit _, ErrKind.rateLimitK => true
  | Err.rateLimit _, ErrKind.providerK => true
  | Err.providerError, ErrKind.providerK => true
  | Err.invalidSymbol, ErrKind.invalidSymbolK => true
  | Err.invalidSymbol, ErrKind.providerK => true
  | Err.other, ErrKind.otherK => true
  | _, _ => false

/-- The dispatch of the first `except RateLimitError` clause. -/
def isRateLimitErr : Err → Bool
  | Err.rateLimit _ => true
  | _ => false

instance {ε α : Type} [DecidableEq ε] [DecidableEq α] : DecidableEq (Except ε α) := fun x y =>
  match x, y with
  | Except.error a, Except.error b =>
    if h : a = b then Decidable.isTrue (congrArg Except.error h)
    else Decidable.isFalse (fun hc => h (Except.error.inj hc))
  | Except.ok a, Except.ok b =>
    if h : a = b then Decidable.isTrue (congrArg Except.ok h)
    else Decidable.isFalse (fun hc => h (Except.ok.inj hc))
  | Except.error _, Except.ok _ => Decidable.isFalse (fun hc => Except.noConfusion hc)
  | Except.ok _, Except.error _ => Decidable.isFalse (fun hc => Except.noConfusion hc)

/-! ## Retry policy (`cryptopilot/utils/retry.py`) -/

/-- `RetryConfig` with the source's defaults; `retry_on` defaults to
`(RateLimitError, ProviderError)`. -/
structure RetryConfig where
  max_retries : Nat := 3
  base_delay : ℚ := 1
  max_delay : ℚ := 60
  exponential_base : ℚ := 2
  retry_on : List ErrKind := [ErrKind.rateLimitK, ErrKind.providerK]
deriving DecidableEq, Repr

/-- `calculate_backoff`: `min(base_delay * exponential_base ** attempt, max_delay)`. -/
def calculate_backoff (attempt : Nat) (config : RetryConfig) : ℚ :=
  min (config.base_delay * config.exponential_base ^ attempt) config.max_delay

/-- Whether `except config.retry_on` catches the exception `e`
(`isinstance(e, k)` for some class `k` in the tuple). -/
def matchesRetryOn (config : RetryConfig) (e : Err) : Bool :=
  config.retry_on.any (fun k => isInstanceOf e k)

/-- Observable outcome of one `retry_with_backoff` run: the returned value or
the raised exception, the number of invocations of the operation, and the
backoff sleeps awaited, in order. -/
structure RetryOutcome (α : Type) where
  result : Except Err α
  attempts : Nat
  sleeps : List ℚ
deriving Repr

/-- The `for attempt in range(config.max_retries + 1)` loop of
`retry_with_backoff`, one iteration per call. The operation is
attempt-indexed so a flaky operation can be expressed. `fuel` only bounds the
recursion; `retry_with_backoff` enters with `fuel = max_retries + 1 - attempt`
so the `attempt < config.max_retries` tests below decide every branch exactly
as the source does. Dispatch order follows the source: `except RateLimitError`
first (honouring `retry_after` over the computed backoff), then
`except config.retry_on`, then `except Exception: raise`. When the final
attempt's exception is caught the loop ends and the last exception is
re-raised, with no further sleep. -/
def retryAux {α : Type} (config : RetryConfig) (f : Nat → Except Err α) :
    Nat → Nat → RetryOutcome α
  | _, 0 => { result := Except.error Err.other, attempts := 0, sleeps := [] }
  | attempt, fuel + 1 =>
    match f attempt with
    | Except.ok v => { result := Except.ok v, attempts := 1, sleeps := [] }
    | Except.error e =>
      match e with
      | Err.rateLimit retryAfter =>
        let delay :=
          match retryAfter with
          | some d => d
          | none => calculate_backoff attempt config
        if attempt < config.max_retries then
          let rest := retryAux config f (attempt + 1) fuel
          { result := rest.result, attempts := rest.attempts + 1, sleeps := delay :: rest.sleeps }
        else
          { result := Except.error e, attempts := 1, sleeps := [] }
      | _ =>
        if matchesRetryOn config e then
          if attempt < config.max_retries then
            let rest := retryAux config f (attempt + 1) fuel
            { result := rest.result, attempts := rest.attempts + 1,
              sleeps := calculate_backoff attempt config :: rest.sleeps }
          else
            { result := Except.error e, attempts := 1, sleeps := [] }
        else
          { result := Except.error e, attempts := 1, sleeps := [] }

/-- `retry_with_backoff(func, *args, config=config)`. -/
def retryWithBackoff {α : Type} (config : RetryConfig) (f : Nat → Except Err α) :
    RetryOutcome α :=
  retryAux config f 0 (config.max_retries + 1)

/-! ## Database records (`cryptopilot/database/models.py`) -/

/-- `MarketDataRecord` pydantic model (the `id` column is irrelevant here). -/
structure MarketDataRecord where
  symbol : List Char
  base_currency : List Char
  timestamp : Int
  «open» : ℚ
  high : ℚ
  low : ℚ
  close : ℚ
  volume : ℚ
  timeframe : Timeframe
  provider : List Char
  collected_at : Int
deriving DecidableEq, Repr

/-- The `validate_high` field validator of `MarketDataRecord`. pydantic runs
field validators in declaration order (`open`, `high`, `low`, `close`, ...),
so while `high` is being validated, `low` is not yet in `info.data`:
`lowSoFar` is what `info.data.get("low")` holds at that moment, which is
always `none`, and the `High must be >= Low` comparison is skipped. -/
def validate_high (v : ℚ) (lowSoFar : Option ℚ) : Bool :=
  match lowSoFar with
  | some low => decide (low ≤ v)
  | none => true

/-- Construction of a `MarketDataRecord` through its pydantic validation:
`symbol` length 1..10 then upper-cased by `symbol_uppercase`,
`open/high/low/close : gt=0`, `volume : ge=0`, and `validate_high` evaluated
with `low` absent from `info.data` (see `validate_high`). -/
def mkMarketDataRecord (symbol base_currency : List Char) (timestamp : Int)
    («open» high low close volume : ℚ) (timeframe : Timeframe)
    (provider : List Char) (collected_at : Int) : Option MarketDataRecord :=
  if 1 ≤ symbol.length ∧ symbol.length ≤ 10 ∧ 0 < «open» ∧ 0 < high ∧
      validate_high high none = true ∧ 0 < low ∧ 0 < close ∧ 0 ≤ volume then
    some { symbol := pyUpper symbol, base_currency, timestamp, «open», high, low, close,
           volume, timeframe, provider, collected_at }
  else
    none

/-! ## Repository (`cryptopilot/database/repository.py`) -/

/-- One row of the `market_data` table, holding the parameter tuple built by
`insert_market_data` (`to_utc` and `decimal_to_str` are identities in this
model because timestamps are already UTC seconds and prices are exact `ℚ`). -/
structure Row where
  symbol : List Char
  base_currency : List Char
  timestamp : Int
  «open» : ℚ
  high : ℚ
  low : ℚ
  close : ℚ
  volume : ℚ
  timeframe : Timeframe
  provider : List Char
  collected_at : Int
deriving DecidableEq, Repr

/-- The parameter tuple of `insert_market_data` for one record:
`rec.symbol.upper()` plus the remaining columns verbatim. -/
def rowOfRecord (rec : MarketDataRecord) : Row :=
  { symbol := pyUpper rec.symbol, base_currency := rec.base_currency,
    timestamp := rec.timestamp, «open» := rec.«open», high := rec.high, low := rec.low,
    close := rec.close, volume := rec.volume, timeframe := rec.timeframe,
    provider := rec.provider, collected_at := rec.collected_at }

/-- Modelled from the spec: the repository relies on the `UNIQUE` constraint of
`schema.sql`, which is not under `src/`; per §3 of the spec the uniqueness key
of a candle is `(symbol, timeframe, provider, timestamp)`. -/
def rowKey (r : Row) : List Char × Timeframe × List Char × Int :=
  (r.symbol, r.timeframe, r.provider, r.timestamp)

/-- Whether the table already holds a row with the given uniqueness key. -/
def hasKey (store : List Row) (k : List Char × Timeframe × List Char × Int) : Bool :=
  store.any (fun r => decide (rowKey r = k))

/-- `INSERT OR IGNORE` of one row: a duplicate of an existing uniqueness key is
silently skipped and contributes 0 to `rowcount`, otherwise the row is
appended and contributes 1. -/
def insertRow (store : List Row) (r : Row) : List Row × Nat :=
  if hasKey store (rowKey r) then (store, 0) else (store ++ [r], 1)

/-- `executemany` over one chunk: the rows are inserted in order and the
rowcounts summed. -/
def foldIns (store : List Row) : List Row → List Row × Nat
  | [] => (store, 0)
  | r :: rest =>
    let p := insertRow store r
    let q := foldIns p.1 rest
    (q.1, p.2 + q.2)

/-- The `for i in range(0, len(params), batch_size)` chunking loop: each chunk
`params[i : i + batch_size]` commits in its own transaction and the per-chunk
rowcounts are summed. Each iteration consumes at least one row, so `fuel`
(initialised to `params.length`) never runs out on the paths the source takes;
it exists only to make the recursion structural. -/
def insertBatches (bs : Nat) : Nat → List Row → List Row → List Row × Nat
  | _, store, [] => (store, 0)
  | 0, store, _ => (store, 0)
  | fuel + 1, store, p :: rest =>
    let chunk := p :: rest.take (bs - 1)
    let next := rest.drop (bs - 1)
    let c := foldIns store chunk
    let q := insertBatches bs fuel c.1 next
    (q.1, c.2 + q.2)

/-- `Repository.insert_market_data(records, batch_size)`: empty input returns 0;
otherwise the parameter tuples are built (upper-casing each symbol), the batch
size defaults to `len(params)` when `None` or non-positive, and the chunks are
inserted with `INSERT OR IGNORE`. Returns the new table and the insert count. -/
def insertMarketData (store : List Row) (records : List MarketDataRecord)
    (batch_size : Option Int) : List Row × Nat :=
  if records.isEmpty then (store, 0)
  else
    let params := records.map rowOfRecord
    let bs : Nat :=
      match batch_size with
      | none => params.length
      | some b => if b ≤ 0 then params.length else b.toNat
    insertBatches bs params.length store params

/-- `Repository.get_latest_timestamp`: the greatest `timestamp` among rows with
`symbol = symbol.upper()`, the given timeframe and provider, or `none`. -/
def getLatestTimestamp (store : List Row) (symbol : List Char) (timeframe : Timeframe)
    (provider : List Char) : Option Int :=
  ((store.filter (fun r =>
      decide (r.symbol = pyUpper symbol) && decide (r.timeframe = timeframe) &&
      decide (r.provider = provider))).map (fun r => r.timestamp)).max?

/-- Insertion into an ascending list, for `ORDER BY timestamp ASC`. -/
def insertSorted (x : Int) : List Int → List Int
  | [] => [x]
  | y :: ys => if x ≤ y then x :: y :: ys else y :: insertSorted x ys

/-- Ascending sort by repeated insertion. -/
def sortAsc (l : List Int) : List Int := l.foldr insertSorted []

/-- `Repository.list_timestamps`: all timestamps for `symbol.upper()`,
timeframe and provider within `[start, end]`, ascending. (ISO-8601 strings of
UTC instants compare exactly like the instants themselves.) -/
def listTimestamps (store : List Row) (symbol : List Char) (timeframe : Timeframe)
    (provider : List Char) (start «end» : Int) : List Int :=
  sortAsc ((store.filter (fun r =>
      decide (r.symbol = pyUpper symbol) && decide (r.timeframe = timeframe) &&
      decide (r.provider = provider) && decide (start ≤ r.timestamp) &&
      decide (r.timestamp ≤ «end»))).map (fun r => r.timestamp))

/-! ## Time-series collector (`cryptopilot/collectors/market_data.py`) -/

/-- `CollectionResult` dataclass. -/
structure CollectionResult where
  symbol : List Char
  timeframe : Timeframe
  candles_fetched : Nat
  candles_inserted : Nat
  start : Option Int
  «end» : Option Int
deriving DecidableEq, Repr

/-- Constructor arguments shared by `MarketDataCollector` and `GapFiller`. -/
structure MarketDataCollector where
  provider_name : List Char
  base_currency : List Char
  batch_size : Int := 100
  retry_config : RetryConfig := {}
deriving Repr

/-- `GapFiller` has the same constructor arguments as the collector. -/
structure GapFiller where
  provider_name : List Char
  base_currency : List Char
  batch_size : Int := 100
  retry_config : RetryConfig := {}
deriving Repr

/-- The fetch-start computation of `_collect_single` (market_data.py lines
127-133): no prior data uses `now - timedelta(days=lookback_days)`;
`update_all` uses `latest + tf_delta` and ignores the lookback; otherwise the
later of the two. -/
def computeFetchStart (nowT : Int) (latest : Option Int) (lookback_days : Int)
    (tfd : Int) (update_all : Bool) : Int :=
  match latest with
  | none => nowT - lookback_days * 86400
  | some last =>
    if update_all then last + tfd
    else max (nowT - lookback_days * 86400) (last + tfd)

/-- `_to_records` (identical in both collectors): each fetched candle becomes a
`MarketDataRecord` with the candle's timestamp and prices verbatim,
`collected_at = now`, and the symbol upper-cased by the pydantic
`symbol_uppercase` validator on construction. -/
def toRecords (symbol base_currency provider : List Char) (timeframe : Timeframe)
    (nowT : Int) (candles : List OHLCV) : List MarketDataRecord :=
  candles.map (fun cd =>
    { symbol := pyUpper symbol, base_currency, timestamp := cd.timestamp,
      «open» := cd.«open», high := cd.high, low := cd.low, close := cd.close,
      volume := cd.volume, timeframe, provider, collected_at := nowT })

/-- Observable outcome of `_collect_single`: the returned summary, the table
after the run, the provider windows fetched, and the record batches handed to
`insert_market_data`. -/
structure CollectOutcome where
  result : CollectionResult
  store : List Row
  fetches : List (Int × Int)
  writes : List (List MarketDataRecord)
deriving Repr

/-- `MarketDataCollector._collect_single`. The provider is a deterministic
function of the requested window, wrapped in `retryWithBackoff` exactly as
`_fetch_ohlcv` does; an unrecovered exception propagates as `Except.error`. -/
def collectSingle (c : MarketDataCollector) (store : List Row)
    (provider : Int → Int → Except Err (List OHLCV)) (symbol : List Char)
    (timeframe : Timeframe) (nowT : Int) (lookback_days : Int)
    (update_all dry_run : Bool) : Except Err CollectOutcome :=
  let latest := getLatestTimestamp store symbol timeframe c.provider_name
  let start := computeFetchStart nowT latest lookback_days (tfDelta timeframe) update_all
  if start ≥ nowT then
    Except.ok { result := { symbol, timeframe, candles_fetched := 0, candles_inserted := 0,
                            start := none, «end» := none },
                store, fetches := [], writes := [] }
  else
    match (retryWithBackoff c.retry_config (fun _ => provider start nowT)).result with
    | Except.error e => Except.error e
    | Except.ok candles =>
      if candles.isEmpty then
        Except.ok { result := { symbol, timeframe, candles_fetched := 0, candles_inserted := 0,
                                start := none, «end» := none },
                    store, fetches := [(start, nowT)], writes := [] }
      else
        let records := toRecords symbol c.base_currency c.provider_name timeframe nowT candles
        if dry_run then
          Except.ok { result := { symbol, timeframe, candles_fetched := candles.length,
                                  candles_inserted := 0,
                                  start := (candles.head?).map (fun cd => cd.timestamp),
                                  «end» := (candles.getLast?).map (fun cd => cd.timestamp) },
                      store, fetches := [(start, nowT)], writes := [] }
        else
          let ins := insertMarketData store records (some c.batch_size)
          Except.ok { result := { symbol, timeframe, candles_fetched := candles.length,
                                  candles_inserted := ins.2,
                                  start := (candles.head?).map (fun cd => cd.timestamp),
                                  «end» := (candles.getLast?).map (fun cd => cd.timestamp) },
                      store := ins.1, fetches := [(start, nowT)], writes := [records] }

/-- One iteration of the `collect` loop: the symbol is normalised by
`raw_symbol.upper().strip()` before `_collect_single` runs. -/
def collectOne (c : MarketDataCollector) (store : List Row)
    (provider : Int → Int → Except Err (List OHLCV)) (timeframe : Timeframe)
    (nowT : Int) (lookback_days : Int) (update_all dry_run : Bool)
    (raw_symbol : List Char) : Except Err CollectOutcome :=
  collectSingle c store provider (pyStrip (pyUpper raw_symbol)) timeframe nowT lookback_days
    update_all dry_run

/-! ## Gap detection and filling (`cryptopilot/collectors/gap_filler.py`) -/

/-- `Gap` dataclass. -/
structure Gap where
  start : Int
  «end» : Int
  missing_candles : Int
deriving DecidableEq, Repr

/-- `GapCheckResult` dataclass. -/
structure GapCheckResult where
  symbol : List Char
  timeframe : Timeframe
  checked_from : Int
  checked_to : Int
  gaps : List Gap
deriving DecidableEq, Repr

/-- The consecutive-pair walk of `detect_gaps_recent`: for each pair
`(prev, ts)` with `delta = ts - prev`, a gap is recorded when
`delta > tf_delta + timedelta(seconds=1)` and
`missing = int(delta // tf_delta) - 1` is positive (`//` is Python floor
division, `Int.fdiv`). -/
def gapWalk (tfd : Int) : Int → List Int → List Gap
  | _, [] => []
  | prev, ts :: rest =>
    let delta := ts - prev
    let tail := gapWalk tfd ts rest
    if delta > tfd + 1 then
      let missing := Int.fdiv delta tfd - 1
      if missing > 0 then
        { start := prev + tfd, «end» := ts - tfd, missing_candles := missing } :: tail
      else tail
    else tail

/-- Gap detection on an ascending timestamp list: fewer than 2 timestamps give
an empty gap list (not an error), otherwise the consecutive-pair walk runs. -/
def detectGapsCore (tfd : Int) : List Int → List Gap
  | [] => []
  | [_] => []
  | t0 :: rest => gapWalk tfd t0 rest

/-- `GapFiller.detect_gaps_recent`: reads the ascending timestamps of
`[now - timedelta(days=lookback_days), now]` and runs the gap walk; purely
inspects timestamps. -/
def detectGapsRecent (gf : GapFiller) (store : List Row) (symbol : List Char)
    (timeframe : Timeframe) (lookback_days : Int) (nowT : Int) : GapCheckResult :=
  let start := nowT - lookback_days * 86400
  let timestamps := listTimestamps store symbol timeframe gf.provider_name start nowT
  { symbol, timeframe, checked_from := start, checked_to := nowT,
    gaps := detectGapsCore (tfDelta timeframe) timestamps }

/-- The per-gap loop of `fill_gaps_recent`. Each gap fetches the padded window
`[gap.start - tf_delta, gap.end + tf_delta]` through `retryWithBackoff`; a
window with no candles is logged and skipped (`continue`); a window with
candles is converted and inserted, accumulating `total_inserted`. The loop
body has no exception handler, so an unrecovered fetch error propagates
(`Except.error`) and ends the loop. The second component records the windows
actually fetched, in order. -/
def fillGapsGo (gf : GapFiller) (provider : Int → Int → Except Err (List OHLCV))
    (symbol : List Char) (timeframe : Timeframe) (nowT : Int) :
    List Row → List Gap → Except Err (List Row × Nat) × List (Int × Int)
  | store, [] => (Except.ok (store, 0), [])
  | store, gap :: rest =>
    match (retryWithBackoff gf.retry_config
        (fun _ => provider (gap.start - tfDelta timeframe) (gap.«end» + tfDelta timeframe))).result with
    | Except.error e =>
      (Except.error e, [(gap.start - tfDelta timeframe, gap.«end» + tfDelta timeframe)])
    | Except.ok [] =>
      let t := fillGapsGo gf provider symbol timeframe nowT store rest
      (t.1, (gap.start - tfDelta timeframe, gap.«end» + tfDelta timeframe) :: t.2)
    | Except.ok (cd :: cds) =>
      let records := toRecords symbol gf.base_currency gf.provider_name timeframe nowT (cd :: cds)
      let ins := insertMarketData store records (some gf.batch_size)
      let t := fillGapsGo gf provider symbol timeframe nowT ins.1 rest
      (match t.1 with
       | Except.error e => Except.error e
       | Except.ok p => Except.ok (p.1, ins.2 + p.2),
       (gap.start - tfDelta timeframe, gap.«end» + tfDelta timeframe) :: t.2)

/-- `GapFiller.fill_gaps_recent`: detect first; with no gaps or `dry_run`,
return `(result, 0)` with no fetches and no writes; otherwise run the per-gap
loop. -/
def fillGapsRecent (gf : GapFiller) (store : List Row)
    (provider : Int → Int → Except Err (List OHLCV)) (symbol : List Char)
    (timeframe : Timeframe) (lookback_days : Int) (nowT : Int) (dry_run : Bool) :
    Except Err (GapCheckResult × List Row × Nat) × List (Int × Int) :=
  let result := detectGapsRecent gf store symbol timeframe lookback_days nowT
  if result.gaps.isEmpty || dry_run then (Except.ok (result, store, 0), [])
  else
    let t := fillGapsGo gf provider symbol timeframe nowT store result.gaps
    (t.1.map (fun p => (result, p.1, p.2)), t.2)

/-! ## Spec-side formulations used by refinement-style claims -/

/-- Gap list as §4.2 of the spec words it, written independently of the source
walk: over the consecutive pairs of the timestamp list, a pair `(prev, ts)`
with `delta = ts - prev > interval + 1` and
`floor(delta / interval) - 1 ≥ 1` contributes
`Gap(prev + interval, ts - interval, floor(delta / interval) - 1)`; fewer than
2 timestamps give an empty list. For comparison with `detectGapsCore`. -/
def specGapsOf (interval : Int) (timestamps : List Int) : List Gap :=
  if timestamps.length < 2 then []
  else
    (timestamps.zip timestamps.tail).filterMap (fun p =>
      let delta := p.2 - p.1
      let missing := Int.fdiv delta interval - 1
      if delta > interval + 1 ∧ 1 ≤ missing then
        some { start := p.1 + interval, «end» := p.2 - interval, missing_candles := missing }
      else none)

/-! ## Theorems: retry policy -/

/-- One loop step on a non-final attempt that raises `RateLimitError`:
the hint (or computed backoff) is slept and the loop continues. -/
lemma retryAux_step_rl {α : Type} (c : RetryConfig) (f : Nat → Except Err α)
    (attempt fuel : Nat) (ra : Option ℚ)
    (hf : f attempt = Except.error (Err.rateLimit ra)) (hlt : attempt < c.max_retries) :
    retryAux c f attempt (fuel + 1) =
      { result := (retryAux c f (attempt + 1) fuel).result,
        attempts := (retryAux c f (attempt + 1) fuel).attempts + 1,
        sleeps := ra.getD (calculate_backoff attempt c) ::
          (retryAux c f (attempt + 1) fuel).sleeps } := by
  cases ra <;> simp [retryAux, hf, hlt, Option.getD]

/-- One loop step on a non-final attempt whose error is caught by
`except config.retry_on`: the computed backoff is slept and the loop
continues. -/
lemma retryAux_step_retry {α : Type} (c : RetryConfig) (f : Nat → Except Err α)
    (attempt fuel : Nat) (e : Err) (hf : f attempt = Except.error e)
    (hnr : isRateLimitErr e = false) (hm : matchesRetryOn c e = true)
    (hlt : attempt < c.max_retries) :
    retryAux c f attempt (fuel + 1) =
      { result := (retryAux c f (attempt + 1) fuel).result,
        attempts := (retryAux c f (attempt + 1) fuel).attempts + 1,
        sleeps := calculate_backoff attempt c ::
          (retryAux c f (attempt + 1) fuel).sleeps } := by
  cases e with
  | rateLimit ra => simp [isRateLimitErr] at hnr
  | providerError => simp [retryAux, hf, hm, hlt]
  | invalidSymbol => simp [retryAux, hf, hm, hlt]
  | other => simp [retryAux, hf, hm, hlt]

/-- An error on the final attempt ends the loop with that error, one
invocation and no further sleep — whether it was caught or re-raised. -/
lemma retryAux_step_last {α : Type} (c : RetryConfig) (f : Nat → Except Err α)
    (attempt fuel : Nat) (e : Err) (hf : f attempt = Except.error e)
    (hnl : ¬ attempt < c.max_retries) :
    retryAux c f attempt (fuel + 1) =
      { result := Except.error e, attempts := 1, sleeps := [] } := by
  cases e <;> simp [retryAux, hf, hnl]

/-- Exhaustion behaviour of the retry loop when every attempt raises an error
caught by `except config.retry_on`. -/
lemma retryAux_exhaust {α : Type} (c : RetryConfig) (f : Nat → Except Err α) (errOf : Nat → Err)
    (hf : ∀ n, f n = Except.error (errOf n))
    (hr : ∀ n, matchesRetryOn c (errOf n) = true) :
    ∀ fuel attempt, attempt + fuel = c.max_retries →
      (retryAux c f attempt (fuel + 1)).attempts = fuel + 1 ∧
      (retryAux c f attempt (fuel + 1)).sleeps.length = fuel ∧
      (retryAux c f attempt (fuel + 1)).result = Except.error (errOf c.max_retries) := by
  intro fuel
  induction fuel with
  | zero =>
    intro attempt h
    have hat : attempt = c.max_retries := by omega
    rw [retryAux_step_last c f attempt 0 (errOf attempt) (hf attempt) (by omega), hat]
    exact ⟨rfl, rfl, rfl⟩
  | succ fuel ih =>
    intro attempt h
    have hlt : attempt < c.max_retries := by omega
    have ihx := ih (attempt + 1) (by omega)
    cases he : errOf attempt with
    | rateLimit ra =>
      rw [retryAux_step_rl c f attempt (fuel + 1) ra (by rw [hf attempt, he]) hlt]
      exact ⟨by simpa using ihx.1, by simpa using ihx.2.1, ihx.2.2⟩
    | providerError =>
      rw [retryAux_step_retry c f attempt (fuel + 1) (errOf attempt)
        (hf attempt) (by rw [he]; rfl) (hr attempt) hlt]
      exact ⟨by simpa using ihx.1, by simpa using ihx.2.1, ihx.2.2⟩
    | invalidSymbol =>
      rw [retryAux_step_retry c f attempt (fuel + 1) (errOf attempt)
        (hf attempt) (by rw [he]; rfl) (hr attempt) hlt]
      exact ⟨by simpa using ihx.1, by simpa using ihx.2.1, ihx.2.2⟩
    | other =>
      rw [retryAux_step_retry c f attempt (fuel + 1) (errOf attempt)
        (hf attempt) (by rw [he]; rfl) (hr attempt) hlt]
      exact ⟨by simpa using ihx.1, by simpa using ihx.2.1, ihx.2.2⟩

/-- Input on which the claim about non-retryable errors fails: a rate-limit
error excluded from `retry_on`. -/
def retryCexConfig : RetryConfig := { max_retries := 1, retry_on := [] }

/-- Operation that raises `RateLimitError(retry_after=5)` on every attempt. -/
def retryCexOp : Nat → Except Err Unit := fun _ => Except.error (Err.rateLimit (some 5))

/-- C2 counterexample: with `retry_on = ()`, a `RateLimitError` is not among
the retryable kinds, yet `retry_with_backoff` sleeps 5 and invokes the
operation a second time instead of re-raising immediately — the dedicated
`except RateLimitError` clause catches it before `except config.retry_on` is
consulted. -/
theorem retry_nonretryable_claim_cex :
    matchesRetryOn retryCexConfig (Err.rateLimit (some 5)) = false ∧
    (retryWithBackoff retryCexConfig retryCexOp).attempts = 2 ∧
    (retryWithBackoff retryCexConfig retryCexOp).sleeps = [(5 : ℚ)] ∧
    (retryWithBackoff retryCexConfig retryCexOp).result =
      Except.error (Err.rateLimit (some 5)) :=
  ⟨rfl, rfl, rfl, rfl⟩

/-- C2 (amended): an exception that is not a `RateLimitError` and whose kind is
not among `retry_on` is re-raised immediately: one invocation, no sleep, the
same error — at whatever attempt it occurs, and in particular from the first
attempt of `retry_with_backoff`. -/
theorem retry_nonretryable_immediate {α : Type} (c : RetryConfig) (f : Nat → Except Err α)
    (e : Err) (hrl : isRateLimitErr e = false) (hm : matchesRetryOn c e = false) :
    (∀ attempt fuel, f attempt = Except.error e →
      retryAux c f attempt (fuel + 1) =
        { result := Except.error e, attempts := 1, sleeps := [] }) ∧
    (f 0 = Except.error e →
      retryWithBackoff c f = { result := Except.error e, attempts := 1, sleeps := [] }) := by
  have key : ∀ attempt fuel, f attempt = Except.error e →
      retryAux c f attempt (fuel + 1) =
        { result := Except.error e, attempts := 1, sleeps := [] } := by
    intro attempt fuel hf
    cases e with
    | rateLimit ra => simp [isRateLimitErr] at hrl
    | providerError => simp [retryAux, hf, hm]
    | invalidSymbol => simp [retryAux, hf, hm]
    | other => simp [retryAux, hf, hm]
  exact ⟨key, fun h0 => key 0 c.max_retries h0⟩

/-- Configuration whose `retry_on` names neither `InvalidSymbolError` nor
`ProviderError`. -/
def retryNrConfig : RetryConfig := { retry_on := [ErrKind.otherK] }

/-- Operation raising `InvalidSymbolError` on every attempt. -/
def retryNrOp : Nat → Except Err Unit := fun _ => Except.error Err.invalidSymbol

/-- Witness for `retry_nonretryable_immediate` at a concrete input. -/
theorem retry_nonretryable_immediate_witness :
    isRateLimitErr Err.invalidSymbol = false ∧
    matchesRetryOn retryNrConfig Err.invalidSymbol = false ∧
    retryWithBackoff retryNrConfig retryNrOp =
      { result := Except.error Err.invalidSymbol, attempts := 1, sleeps := [] } :=
  ⟨rfl, rfl,
    (retry_nonretryable_immediate retryNrConfig retryNrOp Err.invalidSymbol rfl rfl).2 rfl⟩

/-- C6: with `max_retries = k` and a retryable failure on every attempt,
`retry_with_backoff` invokes the operation exactly `k + 1` times, sleeps
exactly `k` times (none after the final attempt), and raises the error of the
final attempt. -/
theorem retry_exhaustion {α : Type} (c : RetryConfig) (f : Nat → Except Err α)
    (errOf : Nat → Err) (hf : ∀ n, f n = Except.error (errOf n))
    (hr : ∀ n, matchesRetryOn c (errOf n) = true) :
    (retryWithBackoff c f).attempts = c.max_retries + 1 ∧
    (retryWithBackoff c f).sleeps.length = c.max_retries ∧
    (retryWithBackoff c f).result = Except.error (errOf c.max_retries) :=
  retryAux_exhaust c f errOf hf hr c.max_retries 0 (Nat.zero_add _)

/-- Configuration with `max_retries = 2` and the default `retry_on`. -/
def exhaustConfig : RetryConfig := { max_retries := 2 }

/-- Operation raising `ProviderError` on every attempt. -/
def exhaustOp : Nat → Except Err Unit := fun _ => Except.error Err.providerError

/-- Error observed at each attempt of `exhaustOp`. -/
def exhaustErrOf : Nat → Err := fun _ => Err.providerError

/-- Witness for `retry_exhaustion` at a concrete input. -/
theorem retry_exhaustion_witness :
    (∀ n, exhaustOp n = Except.error (exhaustErrOf n)) ∧
    (∀ n, matchesRetryOn exhaustConfig (exhaustErrOf n) = true) ∧
    (retryWithBackoff exhaustConfig exhaustOp).attempts = exhaustConfig.max_retries + 1 ∧
    (retryWithBackoff exhaustConfig exhaustOp).sleeps.length = exhaustConfig.max_retries ∧
    (retryWithBackoff exhaustConfig exhaustOp).result =
      Except.error (exhaustErrOf exhaustConfig.max_retries) :=
  ⟨fun _ => rfl, fun _ => rfl,
    retry_exhaustion exhaustConfig exhaustOp exhaustErrOf (fun _ => rfl) (fun _ => rfl)⟩

/-- C7: a non-final attempt failing with `RateLimitError(retry_after=d)` makes
the loop sleep exactly `d` before the next attempt, whatever `base_delay`,
`exponential_base`, `max_delay` and the attempt number are. -/
theorem retry_after_precedence {α : Type} (c : RetryConfig) (f : Nat → Except Err α) (d : ℚ) :
    (∀ attempt fuel, attempt < c.max_retries →
      f attempt = Except.error (Err.rateLimit (some d)) →
      (retryAux c f attempt (fuel + 1)).sleeps.head? = some d) ∧
    (0 < c.max_retries → f 0 = Except.error (Err.rateLimit (some d)) →
      (retryWithBackoff c f).sleeps.head? = some d) := by
  have key : ∀ attempt fuel, attempt < c.max_retries →
      f attempt = Except.error (Err.rateLimit (some d)) →
      (retryAux c f attempt (fuel + 1)).sleeps.head? = some d := by
    intro attempt fuel hlt hf
    simp [retryAux, hf, hlt]
  exact ⟨key, fun h0 hf => key 0 c.max_retries h0 hf⟩

/-- Configuration with a deliberately large exponential base. -/
def hintConfig : RetryConfig := { max_retries := 3, exponential_base := 7 }

/-- Operation raising `RateLimitError(retry_after=5)` on every attempt. -/
def hintOp : Nat → Except Err Unit := fun _ => Except.error (Err.rateLimit (some 5))

/-- Witness for `retry_after_precedence` at a concrete input: the first sleep
is 5, not the computed backoff. -/
theorem retry_after_precedence_witness :
    0 < hintConfig.max_retries ∧
    (retryWithBackoff hintConfig hintOp).sleeps.head? = some (5 : ℚ) :=
  ⟨by decide, (retry_after_precedence hintConfig hintOp 5).2 (by decide) rfl⟩

/-! ## Theorems: gap detection -/

/-- The consecutive-pair walk equals the spec's description over zipped
consecutive pairs. -/
lemma gapWalk_eq_spec (d : Int) :
    ∀ (l : List Int) (prev : Int),
      gapWalk d prev l = ((prev :: l).zip l).filterMap (fun p =>
        if p.2 - p.1 > d + 1 ∧ 1 ≤ Int.fdiv (p.2 - p.1) d - 1 then
          some { start := p.1 + d, «end» := p.2 - d,
                 missing_candles := Int.fdiv (p.2 - p.1) d - 1 }
        else none) := by
  intro l
  induction l with
  | nil => intro prev; rfl
  | cons t rest ih =>
    intro prev
    simp only [List.zip_cons_cons, List.filterMap_cons, ← ih]
    by_cases h1 : t - prev > d + 1
    · by_cases h2 : 0 < Int.fdiv (t - prev) d - 1
      · have hb : t - prev > d + 1 ∧ 1 ≤ Int.fdiv (t - prev) d - 1 := ⟨h1, by omega⟩
        simp [gapWalk, h1, h2, hb]
      · have h2x : ¬ (1 ≤ Int.fdiv (t - prev) d - 1) := by omega
        have hb : ¬ (t - prev > d + 1 ∧ 1 ≤ Int.fdiv (t - prev) d - 1) := by
          intro hc; omega
        simp [gapWalk, h1, h2, h2x, hb]
    · have hb : ¬ (t - prev > d + 1 ∧ 1 ≤ Int.fdiv (t - prev) d - 1) := fun hc => h1 hc.1
      simp [gapWalk, h1, hb]

/-- A walk along timestamps whose consecutive deltas never exceed
`interval + 1` records no gap. -/
lemma gapWalk_chain (d : Int) :
    ∀ (l : List Int) (prev : Int),
      List.Chain (fun a b => b - a = d) prev l → gapWalk d prev l = [] := by
  intro l
  induction l with
  | nil => intro prev _; rfl
  | cons t rest ih =>
    intro prev hc
    cases hc with
    | cons hd htl =>
      have hdx : t - prev = d := hd
      have h1 : ¬ (t - prev > d + 1) := by omega
      simp [gapWalk, h1, ih t htl]

/-- C5: gap detection characterisation. `detectGapsCore` agrees with the
spec's pairwise description `specGapsOf` on every input; fewer than two
timestamps give an empty gap list; timestamps `t0` and `t0 + 3·interval` give
exactly one gap `[t0+interval, t0+2·interval]` with 2 missing candles; an
evenly spaced series (every consecutive delta exactly `interval`) gives an
empty gap list. -/
theorem gap_detection_characterization (d t0 : Int) (t : Int)
    (ts l : List Int) :
    detectGapsCore d ts = specGapsOf d ts ∧
    detectGapsCore d [] = [] ∧
    detectGapsCore d [t] = [] ∧
    (0 < d → detectGapsCore d [t0, t0 + 3 * d] =
      [{ start := t0 + d, «end» := t0 + 2 * d, missing_candles := 2 }]) ∧
    (List.Chain (fun a b => b - a = d) t0 l → detectGapsCore d (t0 :: l) = []) := by
  refine ⟨?_, rfl, rfl, ?_, ?_⟩
  · match ts with
    | [] => rfl
    | [t] => rfl
    | t0 :: t1 :: rest =>
      show gapWalk d t0 (t1 :: rest) = specGapsOf d (t0 :: t1 :: rest)
      have hlen : ¬ ((t0 :: t1 :: rest) : List Int).length < 2 := by
        simp only [List.length_cons]; omega
      rw [gapWalk_eq_spec]
      simp only [specGapsOf, if_neg hlen]
      rfl
  · intro hd
    have h1 : (t0 + 3 * d) - t0 = 3 * d := by ring
    have h2 : (3 * d) > d + 1 := by omega
    have hd0 : d ≠ 0 := by omega
    have h3 : Int.fdiv (3 * d) d = 3 := Int.mul_fdiv_cancel 3 hd0
    have h4 : t0 + 3 * d - d = t0 + 2 * d := by ring
    simp [detectGapsCore, gapWalk, h1, h2, h3, h4]
  · intro hc
    match l, hc with
    | [], _ => rfl
    | t1 :: rest, hc =>
      show gapWalk d t0 (t1 :: rest) = []
      exact gapWalk_chain d (t1 :: rest) t0 hc

/-- Witness for `gap_detection_characterization` with `interval = 3600`. -/
theorem gap_detection_characterization_witness :
    (0 : Int) < 3600 ∧
    List.Chain (fun a b : Int => b - a = 3600) 0 [3600, 7200] ∧
    detectGapsCore 3600 [0, 0 + 3 * 3600] =
      [{ start := 0 + 3600, «end» := 0 + 2 * 3600, missing_candles := 2 }] ∧
    detectGapsCore 3600 [0, 3600, 7200] = [] :=
  ⟨by decide,
   List.Chain.cons (by decide) (List.Chain.cons (by decide) List.Chain.nil),
   (gap_detection_characterization 3600 0 0 [] []).2.2.2.1 (by decide),
   (gap_detection_characterization 3600 0 0 [] [3600, 7200]).2.2.2.2
     (List.Chain.cons (by decide) (List.Chain.cons (by decide) List.Chain.nil))⟩

/-! ## Theorems: collector fetch window and no-op short-circuit -/

/-- C4: the fetch-start computation of `_collect_single`: with no prior data it
is `now - lookbackDays`; with `update_all` it is `lastStored + interval`,
independent of the lookback; otherwise it is the maximum of the two. -/
theorem fetch_window_cases (nowT T : Int) (lb lbAlt tfd : Int) (ua : Bool) :
    computeFetchStart nowT none lb tfd ua = nowT - lb * 86400 ∧
    computeFetchStart nowT (some T) lb tfd true = T + tfd ∧
    computeFetchStart nowT (some T) lb tfd true =
      computeFetchStart nowT (some T) lbAlt tfd true ∧
    computeFetchStart nowT (some T) lb tfd false =
      max (nowT - lb * 86400) (T + tfd) := by
  refine ⟨rfl, ?_, ?_, ?_⟩ <;> simp [computeFetchStart]

/-- C8: when the computed fetch start is at or after `now`, `_collect_single`
returns the no-op summary (`fetched = 0`, `inserted = 0`, no window), issues
no provider fetch and no storage write, and leaves the table unchanged. -/
theorem noop_short_circuit (c : MarketDataCollector) (store : List Row)
    (provider : Int → Int → Except Err (List OHLCV)) (symbol : List Char)
    (tf : Timeframe) (nowT : Int) (lb : Int) (ua dr : Bool)
    (h : computeFetchStart nowT (getLatestTimestamp store symbol tf c.provider_name)
      lb (tfDelta tf) ua ≥ nowT) :
    collectSingle c store provider symbol tf nowT lb ua dr =
      Except.ok { result := { symbol := symbol, timeframe := tf, candles_fetched := 0,
                              candles_inserted := 0, start := none, «end» := none },
                  store := store, fetches := [], writes := [] } := by
  simp [collectSingle, h]

/-- Collector used by the no-op witness. -/
def noopCollector : MarketDataCollector :=
  { provider_name := "coingecko".toList, base_currency := "USD".toList }

/-- Provider used by the no-op witness. -/
def noopProvider : Int → Int → Except Err (List OHLCV) := fun _ _ => Except.ok []

/-- Witness for `noop_short_circuit`: an empty table and `lookback_days = 0`
put the computed start exactly at `now`. -/
theorem noop_short_circuit_witness :
    computeFetchStart 100 (getLatestTimestamp [] "BTC".toList Timeframe.oneDay
      noopCollector.provider_name) 0 (tfDelta Timeframe.oneDay) false ≥ 100 ∧
    collectSingle noopCollector [] noopProvider "BTC".toList Timeframe.oneDay 100 0 false false =
      Except.ok { result := { symbol := "BTC".toList, timeframe := Timeframe.oneDay,
                              candles_fetched := 0, candles_inserted := 0,
                              start := none, «end» := none },
                  store := [], fetches := [], writes := [] } :=
  ⟨by decide,
   noop_short_circuit noopCollector [] noopProvider "BTC".toList Timeframe.oneDay 100 0
     false false (by decide)⟩

/-! ## Theorems: candle data model -/

/-- C3 counterexample: the values open=1, high=1, low=2, close=1, volume=0
violate `high ≥ max(open, close, low)` (1 < 2), yet both the provider model
`OHLCV` and the storage model `MarketDataRecord` accept them — only per-field
positivity is validated, and the `High must be >= Low` validator never fires
because `low` is validated after `high`. -/
theorem candle_invariant_cex :
    (mkOHLCV 0 1 1 2 1 0).isSome = true ∧
    (mkMarketDataRecord "BTC".toList "USD".toList 0 1 1 2 1 0 Timeframe.oneDay
      "coingecko".toList 0).isSome = true ∧
    ¬ (max (1 : ℚ) (max 1 2) ≤ 1) := by
  refine ⟨by decide, by decide, by decide⟩

/-- C3 (amended): the validation actually enforced on candles. An `OHLCV` is
accepted exactly when open/high/low/close are positive and volume is
non-negative; a `MarketDataRecord` additionally requires a symbol of length
1..10; the record conversion `_to_records` copies the candle's prices,
volume and timestamp verbatim, so persisted records satisfy the same
per-field bounds as the accepted candles. No relation between high, low,
open and close is enforced anywhere. -/
theorem candle_field_bounds (ts ca nowT : Int) (sym bc pn : List Char)
    («open» high low close volume : ℚ) (tf : Timeframe) (candles : List OHLCV)
    (r : MarketDataRecord) :
    ((mkOHLCV ts «open» high low close volume).isSome ↔
      (0 < «open» ∧ 0 < high ∧ 0 < low ∧ 0 < close ∧ 0 ≤ volume)) ∧
    ((mkMarketDataRecord sym bc ts «open» high low close volume tf pn ca).isSome ↔
      (1 ≤ sym.length ∧ sym.length ≤ 10 ∧
        0 < «open» ∧ 0 < high ∧ 0 < low ∧ 0 < close ∧ 0 ≤ volume)) ∧
    (r ∈ toRecords sym bc pn tf nowT candles →
      ∃ cd, cd ∈ candles ∧ r.«open» = cd.«open» ∧ r.high = cd.high ∧ r.low = cd.low ∧
        r.close = cd.close ∧ r.volume = cd.volume ∧ r.timestamp = cd.timestamp) := by
  refine ⟨?_, ?_, ?_⟩
  · unfold mkOHLCV
    split_ifs with hc
    · simp [hc]
    · simp [hc]
  · unfold mkMarketDataRecord
    split_ifs with hc
    · simp only [Option.isSome_some, true_iff]
      exact ⟨hc.1, hc.2.1, hc.2.2.1, hc.2.2.2.1, hc.2.2.2.2.2.1, hc.2.2.2.2.2.2.1,
        hc.2.2.2.2.2.2.2⟩
    · simp only [Option.isSome_none, Bool.false_eq_true, false_iff]
      intro hr
      exact hc ⟨hr.1, hr.2.1, hr.2.2.1, hr.2.2.2.1, rfl, hr.2.2.2.2.1, hr.2.2.2.2.2.1,
        hr.2.2.2.2.2.2⟩
  · intro hr
    unfold toRecords at hr
    rw [List.mem_map] at hr
    obtain ⟨cd, hcd, heq⟩ := hr
    subst heq
    exact ⟨cd, hcd, rfl, rfl, rfl, rfl, rfl, rfl⟩

/-- Candle accepted by the model although its high is below its low. -/
def cexCandle : OHLCV :=
  { timestamp := 3600, «open» := 1, high := 1, low := 2, close := 1, volume := 0 }

/-- The record `_to_records` builds from `cexCandle`. -/
def cexRecordOfCandle : MarketDataRecord :=
  { symbol := "BTC".toList, base_currency := "USD".toList, timestamp := 3600,
    «open» := 1, high := 1, low := 2, close := 1, volume := 0,
    timeframe := Timeframe.oneDay, provider := "coingecko".toList, collected_at := 7200 }

/-- Witness for `candle_field_bounds` at a concrete input. -/
theorem candle_field_bounds_witness :
    cexRecordOfCandle ∈ toRecords "BTC".toList "USD".toList "coingecko".toList
      Timeframe.oneDay 7200 [cexCandle] ∧
    (∃ cd, cd ∈ [cexCandle] ∧ cexRecordOfCandle.«open» = cd.«open» ∧
      cexRecordOfCandle.high = cd.high ∧ cexRecordOfCandle.low = cd.low ∧
      cexRecordOfCandle.close = cd.close ∧ cexRecordOfCandle.volume = cd.volume ∧
      cexRecordOfCandle.timestamp = cd.timestamp) :=
  ⟨by decide,
   (candle_field_bounds 3600 7200 7200 "BTC".toList "USD".toList "coingecko".toList
     1 1 2 1 0 Timeframe.oneDay [cexCandle] cexRecordOfCandle).2.2 (by decide)⟩

/-! ## Theorems: idempotent storage -/

/-- Row-by-row insertion splits over list concatenation. -/
lemma foldIns_append (l1 l2 : List Row) :
    ∀ store, foldIns store (l1 ++ l2) =
      ((foldIns (foldIns store l1).1 l2).1,
       (foldIns store l1).2 + (foldIns (foldIns store l1).1 l2).2) := by
  induction l1 with
  | nil => intro store; simp [foldIns]
  | cons r rest ih => intro store; simp [foldIns, ih, Nat.add_assoc]

/-- With enough fuel (one unit per row suffices, since every chunk consumes at
least one row), the chunked insert loop equals row-by-row insertion: chunking
only affects transaction boundaries, not the rows inserted or the count. -/
lemma insertBatches_eq_foldIns (bs : Nat) :
    ∀ fuel (params : List Row) store, params.length ≤ fuel →
      insertBatches bs fuel store params = foldIns store params := by
  intro fuel
  induction fuel with
  | zero =>
    intro params store h
    cases params with
    | nil => rfl
    | cons p rest => simp at h
  | succ fuel ih =>
    intro params store h
    cases params with
    | nil => rfl
    | cons p rest =>
      have h2 : rest.length ≤ fuel := by simp only [List.length_cons] at h; omega
      have h3 : (rest.drop (bs - 1)).length ≤ fuel := by
        simp only [List.length_drop]; omega
      have hsplit : (p :: rest.take (bs - 1)) ++ rest.drop (bs - 1) = p :: rest := by
        rw [List.cons_append, List.take_append_drop]
      simp only [insertBatches]
      rw [ih (rest.drop (bs - 1)) (foldIns store (p :: rest.take (bs - 1))).1 h3]
      conv_rhs => rw [← hsplit]
      rw [foldIns_append]

/-- A key present in the table survives one `INSERT OR IGNORE`. -/
lemma hasKey_insertRow (store : List Row) (r : Row)
    (k : List Char × Timeframe × List Char × Int) (h : hasKey store k = true) :
    hasKey (insertRow store r).1 k = true := by
  unfold insertRow
  split_ifs with hp
  · exact h
  · simp [hasKey, List.any_append] at h ⊢
    exact Or.inl h

/-- A key present in the table survives row-by-row insertion. -/
lemma hasKey_foldIns (l : List Row) :
    ∀ store k, hasKey store k = true → hasKey (foldIns store l).1 k = true := by
  induction l with
  | nil => intro store k h; exact h
  | cons r rest ih =>
    intro store k h
    exact ih (insertRow store r).1 k (hasKey_insertRow store r k h)

/-- After row-by-row insertion, every inserted row's key is present. -/
lemma foldIns_key_present (l : List Row) :
    ∀ store, ∀ r ∈ l, hasKey (foldIns store l).1 (rowKey r) = true := by
  induction l with
  | nil => intro store r hr; cases hr
  | cons q rest ih =>
    intro store r hr
    simp only [foldIns]
    rcases List.mem_cons.mp hr with h | h
    · subst h
      refine hasKey_foldIns rest (insertRow store r).1 (rowKey r) ?_
      unfold insertRow
      split_ifs with hp
      · exact hp
      · simp [hasKey, List.any_append]
    · exact ih (insertRow store q).1 r h

/-- Inserting rows whose keys are all already present changes nothing and
reports zero inserts. -/
lemma foldIns_all_present (l : List Row) :
    ∀ store, (∀ r ∈ l, hasKey store (rowKey r) = true) → foldIns store l = (store, 0) := by
  induction l with
  | nil => intro store _; rfl
  | cons r rest ih =>
    intro store h
    have hr : hasKey store (rowKey r) = true := h r (List.mem_cons_self r rest)
    have hstep : insertRow store r = (store, 0) := by unfold insertRow; rw [if_pos hr]
    simp only [foldIns, hstep]
    rw [ih store (fun q hq => h q (List.mem_cons_of_mem r hq))]
    simp

/-- Inserting rows with pairwise distinct keys, none already present, inserts
all of them. -/
lemma foldIns_count_distinct (l : List Row) :
    ∀ store, l.Pairwise (fun a b => rowKey a ≠ rowKey b) →
      (∀ r ∈ l, hasKey store (rowKey r) = false) → (foldIns store l).2 = l.length := by
  induction l with
  | nil => intro store _ _; rfl
  | cons r rest ih =>
    intro store hdist habs
    have hr : hasKey store (rowKey r) = false := habs r (List.mem_cons_self r rest)
    have hstep : insertRow store r = (store ++ [r], 1) := by
      unfold insertRow; rw [if_neg (by simp [hr])]
    have habs2 : ∀ q ∈ rest, hasKey (store ++ [r]) (rowKey q) = false := by
      intro q hq
      have h1 : hasKey store (rowKey q) = false := habs q (List.mem_cons_of_mem r hq)
      have h2 : rowKey r ≠ rowKey q := (List.pairwise_cons.mp hdist).1 q hq
      simp [hasKey, List.any_append] at h1 ⊢
      exact ⟨h1, fun hc => h2 hc⟩
    have := ih (store ++ [r]) (List.pairwise_cons.mp hdist).2 habs2
    simp only [foldIns, hstep, this, List.length_cons]
    omega

/-- C9: insert idempotence. When the record set has pairwise distinct
uniqueness keys, none already stored, `insert_market_data` inserts and counts
all of them; re-inserting any record set a second time — indeed re-running
any call on its own output — inserts nothing, counts zero and leaves the
stored series unchanged, for every batch size. Duplicates are skipped by
`INSERT OR IGNORE`; nothing raises. -/
theorem insert_idempotent (store : List Row) (records : List MarketDataRecord)
    (batch_size : Option Int)
    (hdist : records.Pairwise (fun a b => rowKey (rowOfRecord a) ≠ rowKey (rowOfRecord b)))
    (habs : ∀ r ∈ records, hasKey store (rowKey (rowOfRecord r)) = false) :
    (insertMarketData store records batch_size).2 = records.length ∧
    (∀ (store2 : List Row) (records2 : List MarketDataRecord) (bs2 : Option Int),
      insertMarketData (insertMarketData store2 records2 bs2).1 records2 bs2 =
        ((insertMarketData store2 records2 bs2).1, 0)) := by
  constructor
  · cases records with
    | nil => rfl
    | cons r0 rest =>
      unfold insertMarketData
      rw [if_neg (by simp)]
      rw [insertBatches_eq_foldIns _ _ _ _ (by simp [List.length_map])]
      rw [foldIns_count_distinct]
      · simp
      · rw [List.pairwise_map]
        exact hdist
      · intro q hq
        rw [List.mem_map] at hq
        obtain ⟨rec, hrec, hqe⟩ := hq
        subst hqe
        exact habs rec hrec
  · intro store2 records2 bs2
    cases records2 with
    | nil => rfl
    | cons r0 rest =>
      unfold insertMarketData
      rw [if_neg (by simp), if_neg (by simp)]
      rw [insertBatches_eq_foldIns _ _ _ _ (by simp [List.length_map]),
          insertBatches_eq_foldIns _ _ _ _ (by simp [List.length_map])]
      apply foldIns_all_present
      intro q hq
      exact foldIns_key_present _ store2 q hq

/-- Record used by the idempotence witness. -/
def idemRecord : MarketDataRecord :=
  { symbol := "BTC".toList, base_currency := "USD".toList, timestamp := 0,
    «open» := 1, high := 2, low := 1, close := 2, volume := 3,
    timeframe := Timeframe.oneDay, provider := "coingecko".toList, collected_at := 0 }

/-- Witness for `insert_idempotent`: inserting one fresh record into an empty
table counts 1; re-running the call on its output counts 0 and leaves the
table unchanged. -/
theorem insert_idempotent_witness :
    (insertMarketData [] [idemRecord] none).2 = [idemRecord].length ∧
    insertMarketData (insertMarketData [] [idemRecord] none).1 [idemRecord] none =
      ((insertMarketData [] [idemRecord] none).1, 0) :=
  ⟨(insert_idempotent [] [idemRecord] none (by simp) (by decide)).1,
   (insert_idempotent [] [idemRecord] none (by simp) (by decide)).2 [] [idemRecord] none⟩

/-! ## Theorems: symbol normalization in collect -/

/-- Every summary `_collect_single` returns carries the symbol it was invoked
with, in every branch. -/
lemma collectSingle_symbol (c : MarketDataCollector) (store : List Row)
    (provider : Int → Int → Except Err (List OHLCV)) (sym : List Char) (tf : Timeframe)
    (nowT lb : Int) (ua dr : Bool) (out : CollectOutcome)
    (h : collectSingle c store provider sym tf nowT lb ua dr = Except.ok out) :
    out.result.symbol = sym := by
  simp only [collectSingle] at h
  repeat' split at h
  all_goals
    first
      | exact Except.noConfusion h
      | (injection h with h2; subst h2; rfl)

/-- C10: `collect` normalises each symbol by `raw_symbol.upper().strip()`
before doing anything else. The returned summary's symbol is the normalised
form; two invocations whose raw symbols normalise identically are literally
the same computation (same repository reads, provider fetches, writes and
results); the write path keys every row on the upper-cased record symbol; and
the latest-timestamp read depends only on the upper-cased symbol. -/
theorem collect_symbol_normalization (c : MarketDataCollector) (store : List Row)
    (provider : Int → Int → Except Err (List OHLCV)) (tf : Timeframe) (nowT lb : Int)
    (ua dr : Bool) (raw1 raw2 : List Char)
    (h : pyStrip (pyUpper raw1) = pyStrip (pyUpper raw2)) :
    (∀ out, collectOne c store provider tf nowT lb ua dr raw1 = Except.ok out →
      out.result.symbol = pyStrip (pyUpper raw1)) ∧
    collectOne c store provider tf nowT lb ua dr raw1 =
      collectOne c store provider tf nowT lb ua dr raw2 ∧
    (∀ rec, (rowOfRecord rec).symbol = pyUpper rec.symbol) ∧
    (∀ sym1 sym2, pyUpper sym1 = pyUpper sym2 →
      getLatestTimestamp store sym1 tf c.provider_name =
        getLatestTimestamp store sym2 tf c.provider_name) := by
  refine ⟨?_, ?_, ?_, ?_⟩
  · intro out hout
    exact collectSingle_symbol c store provider (pyStrip (pyUpper raw1)) tf nowT lb ua dr
      out hout
  · unfold collectOne
    rw [h]
  · intro rec
    rfl
  · intro sym1 sym2 hs
    unfold getLatestTimestamp
    simp only [hs]

/-- Collector used by the normalization witness. -/
def normCollector : MarketDataCollector :=
  { provider_name := "coingecko".toList, base_currency := "USD".toList }

/-- Provider used by the normalization witness. -/
def normProvider : Int → Int → Except Err (List OHLCV) := fun _ _ => Except.ok []

/-- Witness for `collect_symbol_normalization`: " btc " and "Btc" normalise to
"BTC" and produce identical runs. -/
theorem collect_symbol_normalization_witness :
    pyStrip (pyUpper " btc ".toList) = pyStrip (pyUpper "Btc".toList) ∧
    collectOne normCollector [] normProvider Timeframe.oneDay 100 0 false false " btc ".toList =
      collectOne normCollector [] normProvider Timeframe.oneDay 100 0 false false "Btc".toList :=
  ⟨by decide,
   (collect_symbol_normalization normCollector [] normProvider Timeframe.oneDay 100 0
     false false " btc ".toList "Btc".toList (by decide)).2.1⟩

/-! ## Theorems: gap filling -/

/-- One gap whose padded-window fetch raises: the error leaves the loop at
once; only this window was fetched, the rest of the gap list is untouched. -/
lemma fillGapsGo_cons_error (gf : GapFiller)
    (provider : Int → Int → Except Err (List OHLCV)) (sym : List Char) (tf : Timeframe)
    (nowT : Int) (store : List Row) (g : Gap) (rest : List Gap) (e : Err)
    (hr : (retryWithBackoff gf.retry_config
        (fun _ => provider (g.start - tfDelta tf) (g.«end» + tfDelta tf))).result =
      Except.error e) :
    fillGapsGo gf provider sym tf nowT store (g :: rest) =
      (Except.error e, [(g.start - tfDelta tf, g.«end» + tfDelta tf)]) := by
  simp [fillGapsGo, hr]

/-- One gap whose padded-window fetch returns no candles: logged and skipped,
the loop continues on the same table. -/
lemma fillGapsGo_cons_empty (gf : GapFiller)
    (provider : Int → Int → Except Err (List OHLCV)) (sym : List Char) (tf : Timeframe)
    (nowT : Int) (store : List Row) (g : Gap) (rest : List Gap)
    (hr : (retryWithBackoff gf.retry_config
        (fun _ => provider (g.start - tfDelta tf) (g.«end» + tfDelta tf))).result =
      Except.ok []) :
    fillGapsGo gf provider sym tf nowT store (g :: rest) =
      ((fillGapsGo gf provider sym tf nowT store rest).1,
       (g.start - tfDelta tf, g.«end» + tfDelta tf) ::
         (fillGapsGo gf provider sym tf nowT store rest).2) := by
  simp [fillGapsGo, hr]

/-- One gap whose padded-window fetch returns candles: they are converted,
inserted, and the inserted count is added to whatever the remaining gaps
contribute. -/
lemma fillGapsGo_cons_insert (gf : GapFiller)
    (provider : Int → Int → Except Err (List OHLCV)) (sym : List Char) (tf : Timeframe)
    (nowT : Int) (store : List Row) (g : Gap) (rest : List Gap) (cd : OHLCV)
    (cds : List OHLCV)
    (hr : (retryWithBackoff gf.retry_config
        (fun _ => provider (g.start - tfDelta tf) (g.«end» + tfDelta tf))).result =
      Except.ok (cd :: cds)) :
    fillGapsGo gf provider sym tf nowT store (g :: rest) =
      (match (fillGapsGo gf provider sym tf nowT
          (insertMarketData store
            (toRecords sym gf.base_currency gf.provider_name tf nowT (cd :: cds))
            (some gf.batch_size)).1 rest).1 with
       | Except.error e => Except.error e
       | Except.ok p => Except.ok (p.1,
           (insertMarketData store
             (toRecords sym gf.base_currency gf.provider_name tf nowT (cd :: cds))
             (some gf.batch_size)).2 + p.2),
       (g.start - tfDelta tf, g.«end» + tfDelta tf) ::
         (fillGapsGo gf provider sym tf nowT
           (insertMarketData store
             (toRecords sym gf.base_currency gf.provider_name tf nowT (cd :: cds))
             (some gf.batch_size)).1 rest).2) := by
  simp [fillGapsGo, hr]


/-- The per-gap loop splits over concatenation of the gap list: a prefix that
completes without error hands its table to the suffix, the suffix's insert
count is added to the prefix's, and the fetched windows concatenate. -/
lemma fillGapsGo_append (gf : GapFiller)
    (provider : Int → Int → Except Err (List OHLCV)) (sym : List Char) (tf : Timeframe)
    (nowT : Int) :
    ∀ (gs1 : List Gap) (store s1 : List Row) (n1 : Nat) (evs1 : List (Int × Int))
      (gs2 : List Gap),
      fillGapsGo gf provider sym tf nowT store gs1 = (Except.ok (s1, n1), evs1) →
      fillGapsGo gf provider sym tf nowT store (gs1 ++ gs2) =
        ((fillGapsGo gf provider sym tf nowT s1 gs2).1.map (fun p => (p.1, n1 + p.2)),
         evs1 ++ (fillGapsGo gf provider sym tf nowT s1 gs2).2) := by
  intro gs1
  induction gs1 with
  | nil =>
    intro store s1 n1 evs1 gs2 h
    simp only [fillGapsGo, Prod.mk.injEq, Except.ok.injEq] at h
    obtain ⟨⟨hs, hn⟩, he⟩ := h
    subst hs
    subst hn
    subst he
    simp only [List.nil_append]
    have hmap : (fillGapsGo gf provider sym tf nowT store gs2).1.map
        (fun p : List Row × Nat => (p.1, 0 + p.2)) =
        (fillGapsGo gf provider sym tf nowT store gs2).1 := by
      cases (fillGapsGo gf provider sym tf nowT store gs2).1 with
      | error e => rfl
      | ok p => simp [Except.map]
    rw [hmap]
  | cons g rest ih =>
    intro store s1 n1 evs1 gs2 h
    rw [List.cons_append]
    cases hr : (retryWithBackoff gf.retry_config
        (fun _ => provider (g.start - tfDelta tf) (g.«end» + tfDelta tf))).result with
    | error e =>
      rw [fillGapsGo_cons_error gf provider sym tf nowT store g rest e hr] at h
      simp at h
    | ok candles =>
      cases candles with
      | nil =>
        rw [fillGapsGo_cons_empty gf provider sym tf nowT store g rest hr] at h
        simp only [Prod.mk.injEq] at h
        obtain ⟨h1, h2⟩ := h
        have hrest : fillGapsGo gf provider sym tf nowT store rest =
            (Except.ok (s1, n1), (fillGapsGo gf provider sym tf nowT store rest).2) :=
          Prod.ext h1 rfl
        have hcomp := ih store s1 n1
          (fillGapsGo gf provider sym tf nowT store rest).2 gs2 hrest
        rw [fillGapsGo_cons_empty gf provider sym tf nowT store g (rest ++ gs2) hr, hcomp,
          ← h2]
        simp
      | cons cd cds =>
        rw [fillGapsGo_cons_insert gf provider sym tf nowT store g rest cd cds hr] at h
        simp only [Prod.mk.injEq] at h
        obtain ⟨h1, h2⟩ := h
        cases ht : (fillGapsGo gf provider sym tf nowT
            (insertMarketData store
              (toRecords sym gf.base_currency gf.provider_name tf nowT (cd :: cds))
              (some gf.batch_size)).1 rest).1 with
        | error e2 => rw [ht] at h1; simp at h1
        | ok p =>
          rw [ht] at h1
          simp only [Except.ok.injEq, Prod.mk.injEq] at h1
          obtain ⟨hp1, hp2⟩ := h1
          have hrest : fillGapsGo gf provider sym tf nowT
              (insertMarketData store
                (toRecords sym gf.base_currency gf.provider_name tf nowT (cd :: cds))
                (some gf.batch_size)).1 rest =
              (Except.ok (p.1, p.2), (fillGapsGo gf provider sym tf nowT
                (insertMarketData store
                  (toRecords sym gf.base_currency gf.provider_name tf nowT (cd :: cds))
                  (some gf.batch_size)).1 rest).2) :=
            Prod.ext ht rfl
          have hcomp := ih (insertMarketData store
              (toRecords sym gf.base_currency gf.provider_name tf nowT (cd :: cds))
              (some gf.batch_size)).1 p.1 p.2
            (fillGapsGo gf provider sym tf nowT
              (insertMarketData store
                (toRecords sym gf.base_currency gf.provider_name tf nowT (cd :: cds))
                (some gf.batch_size)).1 rest).2 gs2 hrest
          rw [fillGapsGo_cons_insert gf provider sym tf nowT store g (rest ++ gs2) cd cds hr,
            hcomp, ← hp1, ← hp2, ← h2]
          cases hv : (fillGapsGo gf provider sym tf nowT p.1 gs2).1 with
          | error e3 => simp [hv, Except.map]
          | ok q => simp [hv, Except.map, Nat.add_assoc]

/-- C1 (amended): per-gap behaviour of `fill_gaps_recent`'s loop. A gap whose
padded-window fetch returns zero candles is logged and skipped and the
remaining gaps are still attempted; the inserted counts of gaps that return
candles accumulate across the run; but the loop body has no exception
handler, so the first gap whose fetch (or insert) raises an unrecovered error
propagates that error to the caller and the remaining gaps are not attempted. -/
theorem fill_gaps_error_aborts (gf : GapFiller)
    (provider : Int → Int → Except Err (List OHLCV)) (sym : List Char) (tf : Timeframe)
    (nowT : Int) (gs1 gs2 : List Gap) (g : Gap) (store s1 : List Row) (n1 : Nat)
    (evs1 : List (Int × Int)) (e : Err)
    (hpre : fillGapsGo gf provider sym tf nowT store gs1 = (Except.ok (s1, n1), evs1))
    (herr : (retryWithBackoff gf.retry_config
        (fun _ => provider (g.start - tfDelta tf) (g.«end» + tfDelta tf))).result =
      Except.error e) :
    fillGapsGo gf provider sym tf nowT store (gs1 ++ g :: gs2) =
      (Except.error e, evs1 ++ [(g.start - tfDelta tf, g.«end» + tfDelta tf)]) ∧
    (∀ (store2 : List Row) (g2 : Gap) (rest2 : List Gap),
      (retryWithBackoff gf.retry_config
          (fun _ => provider (g2.start - tfDelta tf) (g2.«end» + tfDelta tf))).result =
        Except.ok [] →
      fillGapsGo gf provider sym tf nowT store2 (g2 :: rest2) =
        ((fillGapsGo gf provider sym tf nowT store2 rest2).1,
         (g2.start - tfDelta tf, g2.«end» + tfDelta tf) ::
           (fillGapsGo gf provider sym tf nowT store2 rest2).2)) ∧
    (∀ (gs3 : List Gap) (store3 s3 : List Row) (n3 : Nat) (evs3 : List (Int × Int))
       (gs4 : List Gap),
      fillGapsGo gf provider sym tf nowT store3 gs3 = (Except.ok (s3, n3), evs3) →
      fillGapsGo gf provider sym tf nowT store3 (gs3 ++ gs4) =
        ((fillGapsGo gf provider sym tf nowT s3 gs4).1.map (fun p => (p.1, n3 + p.2)),
         evs3 ++ (fillGapsGo gf provider sym tf nowT s3 gs4).2)) := by
  refine ⟨?_, ?_, ?_⟩
  · rw [fillGapsGo_append gf provider sym tf nowT gs1 store s1 n1 evs1 (g :: gs2) hpre,
      fillGapsGo_cons_error gf provider sym tf nowT s1 g gs2 e herr]
    rfl
  · intro store2 g2 rest2 hr2
    exact fillGapsGo_cons_empty gf provider sym tf nowT store2 g2 rest2 hr2
  · exact fillGapsGo_append gf provider sym tf nowT

/-- `GapFiller` constructor arguments used by the C1 input. -/
def cexGapFiller : GapFiller :=
  { provider_name := "coingecko".toList, base_currency := "USD".toList }

/-- A stored series with daily candles at t = 0, 3 days, 6 days: two gaps of
two missing candles each. -/
def cexStore : List Row :=
  [ { symbol := "BTC".toList, base_currency := "USD".toList, timestamp := 0,
      «open» := 1, high := 1, low := 1, close := 1, volume := 0,
      timeframe := Timeframe.oneDay, provider := "coingecko".toList, collected_at := 0 },
    { symbol := "BTC".toList, base_currency := "USD".toList, timestamp := 259200,
      «open» := 1, high := 1, low := 1, close := 1, volume := 0,
      timeframe := Timeframe.oneDay, provider := "coingecko".toList, collected_at := 0 },
    { symbol := "BTC".toList, base_currency := "USD".toList, timestamp := 518400,
      «open» := 1, high := 1, low := 1, close := 1, volume := 0,
      timeframe := Timeframe.oneDay, provider := "coingecko".toList, collected_at := 0 } ]

/-- Provider that raises an unrecovered (non-retryable) error on the first
gap's padded window `[0, 259200]` and would serve the second gap's window. -/
def cexProvider : Int → Int → Except Err (List OHLCV) := fun s _ =>
  if s = 0 then Except.error Err.other
  else Except.ok [{ timestamp := 345600, «open» := 1, high := 1, low := 1, close := 1,
                    volume := 0 }]

/-- C1 counterexample: the store has two gaps, the first gap's fetch raises,
and `fill_gaps_recent` propagates the error to the caller after fetching only
the first window — the second gap is never attempted and no
`(result, insertedCount)` pair is returned, contrary to the claimed
isolation. -/
theorem fill_gaps_isolation_cex :
    (detectGapsRecent cexGapFiller cexStore "BTC".toList Timeframe.oneDay 7 518400).gaps =
      [{ start := 86400, «end» := 172800, missing_candles := 2 },
       { start := 345600, «end» := 432000, missing_candles := 2 }] ∧
    fillGapsRecent cexGapFiller cexStore cexProvider "BTC".toList Timeframe.oneDay 7
      518400 false =
      (Except.error Err.other, [(0, 259200)]) :=
  ⟨by decide, by decide⟩

/-- Witness for `fill_gaps_error_aborts` at the C1 input, with an empty
already-processed prefix. -/
theorem fill_gaps_error_aborts_witness :
    fillGapsGo cexGapFiller cexProvider "BTC".toList Timeframe.oneDay 518400 cexStore [] =
      (Except.ok (cexStore, 0), []) ∧
    (retryWithBackoff cexGapFiller.retry_config
        (fun _ => cexProvider
          ((⟨86400, 172800, 2⟩ : Gap).start - tfDelta Timeframe.oneDay)
          ((⟨86400, 172800, 2⟩ : Gap).«end» + tfDelta Timeframe.oneDay))).result =
      Except.error Err.other ∧
    fillGapsGo cexGapFiller cexProvider "BTC".toList Timeframe.oneDay 518400 cexStore
      ([] ++ (⟨86400, 172800, 2⟩ : Gap) :: [⟨345600, 432000, 2⟩]) =
      (Except.error Err.other,
       [] ++ [((⟨86400, 172800, 2⟩ : Gap).start - tfDelta Timeframe.oneDay,
               (⟨86400, 172800, 2⟩ : Gap).«end» + tfDelta Timeframe.oneDay)]) :=
  ⟨rfl, by decide,
   (fill_gaps_error_aborts cexGapFiller cexProvider "BTC".toList Timeframe.oneDay 518400
     [] [⟨345600, 432000, 2⟩] ⟨86400, 172800, 2⟩ cexStore cexStore 0 [] Err.other rfl
     (by decide)).1⟩
